import Mathlib

/-!
Verification of the robofleet real-time connection/subscription fanout engine
(`app/core/websocket.py` and `app/api/v1/websocket.py`) against its
specification.

Modelling conventions:
* A `WebSocket` handle is modelled as a natural number (`Conn`); a robot id
  (a `UUID`) is modelled as a natural number (`Topic`).  `UUID(int=0)`, the
  sentinel used by the fleet endpoint, is modelled as `0`.
* A Python `dict` is modelled as a key-unique association list with Python's
  in-place update semantics (`d[k] = v` keeps an existing key's position,
  `del d[k]` removes it).  A Python `set` is modelled as a duplicate-free
  list: `add` appends a missing element, `discard` removes it.  Python
  iterates over a `set` in an unspecified order; the list order is one such
  order, and every property proved below is independent of it.
* `await websocket.send_json(...)` either succeeds or raises; the broadcast
  functions model this with an oracle `ok : Conn → Bool` telling which sends
  succeed.  The `try/except Exception` in the source catches every failure,
  so the broadcast itself returns normally; correspondingly its model is a
  total function.
* Float-valued robot fields (location, heading, battery) are never computed
  with — the code only copies them into payloads — so they are carried as
  opaque `Int` values here.
-/

/-- A WebSocket connection handle. -/
abbrev Conn := Nat

/-- A robot id (UUID).  `0` stands for `UUID(int=0)`, the fleet sentinel. -/
abbrev Topic := Nat

section DictModel

variable {α : Type} {β : Type} [DecidableEq α]

/-- `d.get(k)` / `k in d` on a Python dict modelled as an association list:
the value at the first (and, for a genuine dict, only) occurrence of `k`. -/
def dictLookup (k : α) : List (α × β) → Option β
  | [] => none
  | (k', v) :: rest => if k' = k then some v else dictLookup k rest

/-- `d[k] = v`: replace the value at an existing key in place, or append a
new binding at the end, as a Python dict does. -/
def dictSet (k : α) (v : β) : List (α × β) → List (α × β)
  | [] => [(k, v)]
  | (k', v') :: rest =>
    if k' = k then (k, v) :: rest else (k', v') :: dictSet k v rest

/-- `del d[k]`: drop the binding at `k` (first occurrence). -/
def dictDel (k : α) : List (α × β) → List (α × β)
  | [] => []
  | (k', v') :: rest => if k' = k then rest else (k', v') :: dictDel k rest

/-- `s.add(x)` on a Python set modelled as a duplicate-free list: append `x`
when it is not yet a member. -/
def setAdd (x : α) (s : List α) : List α :=
  if x ∈ s then s else s ++ [x]

/-- `s.discard(x)`: remove `x` if present (first occurrence; sets hold each
element once). -/
def setDiscard (x : α) : List α → List α
  | [] => []
  | y :: rest => if y = x then rest else y :: setDiscard x rest

end DictModel

/-- `dict[UUID, set[WebSocket]]` — the `_connections` index. -/
abbrev TopicMap := List (Topic × List Conn)

/-- `dict[WebSocket, set[UUID]]` — the `_subscriptions` index. -/
abbrev ConnMap := List (Conn × List Topic)

/-- The `ConnectionManager` dataclass of `app/core/websocket.py`:
`_connections : dict[UUID, set[WebSocket]]` maps a robot id to the set of
connected websockets and `_subscriptions : dict[WebSocket, set[UUID]]` maps a
websocket to the robot ids it is subscribed to. -/
structure ConnectionManager where
  connections : TopicMap
  subscriptions : ConnMap
  deriving DecidableEq

/-- The freshly constructed manager: both dicts are empty
(`field(default_factory=dict)`). -/
def emptyManager : ConnectionManager :=
  { connections := [], subscriptions := [] }

/-- The subscriber set stored under topic `t`, or empty when the key is
absent (`self._connections.get(t, set())`). -/
def connSet (m : ConnectionManager) (t : Topic) : List Conn :=
  (dictLookup t m.connections).getD []

/-- The subscription set stored under websocket `w`, or empty when the key is
absent. -/
def subSet (m : ConnectionManager) (w : Conn) : List Topic :=
  (dictLookup w m.subscriptions).getD []

/-- `ConnectionManager.connect` (lines 16–26): after `websocket.accept()`,
add `websocket` to `_connections[robot_id]` (creating the entry if absent)
and add `robot_id` to `_subscriptions[websocket]` (creating the entry if
absent).  Creating the missing entry with `set()` and then calling `.add` is
modelled in one step as storing the already-extended set. -/
def ConnectionManager.connect (m : ConnectionManager) (websocket : Conn)
    (robot_id : Topic) : ConnectionManager :=
  let conns :=
    match dictLookup robot_id m.connections with
    | none => dictSet robot_id [websocket] m.connections
    | some s => dictSet robot_id (setAdd websocket s) m.connections
  let subs :=
    match dictLookup websocket m.subscriptions with
    | none => dictSet websocket [robot_id] m.subscriptions
    | some s => dictSet websocket (setAdd robot_id s) m.subscriptions
  { connections := conns, subscriptions := subs }

/-- One iteration of the loop inside `ConnectionManager.disconnect`
(lines 31–35): if `robot_id` is a key of `_connections`, discard `websocket`
from its set and delete the entry when the set becomes empty. -/
def removeConn (websocket : Conn) (conns : TopicMap) (robot_id : Topic) :
    TopicMap :=
  match dictLookup robot_id conns with
  | none => conns
  | some s =>
    let s' := setDiscard websocket s
    if s' = [] then dictDel robot_id conns else dictSet robot_id s' conns

/-- The effect of one `removeConn` step on a looked-up entry: erase the
websocket and drop the entry if nothing is left. -/
def pruneErase (websocket : Conn) : Option (List Conn) → Option (List Conn)
  | none => none
  | some s =>
    let s' := setDiscard websocket s
    if s' = [] then none else some s'

/-- `ConnectionManager.disconnect` (lines 28–36): when `websocket` has a
`_subscriptions` entry, remove it from every subscribed topic's set (pruning
emptied entries) and delete its `_subscriptions` entry; otherwise do
nothing. -/
def ConnectionManager.disconnect (m : ConnectionManager) (websocket : Conn) :
    ConnectionManager :=
  match dictLookup websocket m.subscriptions with
  | none => m
  | some topics =>
    { connections := topics.foldl (removeConn websocket) m.connections
      subscriptions := dictDel websocket m.subscriptions }

/-- `ConnectionManager.broadcast_robot_update` (lines 38–52): if the topic has
no entry, return at once; otherwise attempt `send_json` to each subscriber
(`ok` tells which sends succeed), collecting the failures, and after the full
sweep run one cleanup pass calling `disconnect` on each dead connection.
Returns the list of connections that received the payload together with the
resulting manager state. -/
def ConnectionManager.broadcast_robot_update (m : ConnectionManager)
    (robot_id : Topic) (ok : Conn → Bool) : List Conn × ConnectionManager :=
  match dictLookup robot_id m.connections with
  | none => ([], m)
  | some subs =>
    let delivered := subs.filter ok
    let dead := subs.filter (fun w => ! ok w)
    (delivered, dead.foldl (fun s w => s.disconnect w) m)

/-- `ConnectionManager.get_connection_count` (lines 70–74): with a robot id,
the size of that topic's set (`len(self._connections.get(robot_id, set()))`);
with `None`, `sum(len(s) for s in self._connections.values())`.  A Python
`UUID` defines no `__bool__`, so `if robot_id:` is `False` exactly when the
argument is `None`; hence the argument is modelled as `Option Topic`. -/
def ConnectionManager.get_connection_count (m : ConnectionManager)
    (robot_id : Option Topic) : Nat :=
  match robot_id with
  | some r => ((dictLookup r m.connections).getD []).length
  | none => (m.connections.map fun e => e.2.length).sum

/-- The projection of a robot row that the endpoints read to build payloads
(`app/api/v1/websocket.py` lines 42–50): id, name, serial number, status,
location x/y/z, heading, battery level. -/
structure RobotSnapshot where
  id : Topic
  name : String
  serial_number : String
  status : String
  location_x : Int
  location_y : Int
  location_z : Int
  heading : Int
  battery_level : Int
  deriving DecidableEq

/-- The messages the modelled endpoints send to a client: the initial
`{"event": "connected", ...}` payload of the robot-scoped endpoint (carrying
the robot id, the robot snapshot and the current subscriber count) and the
`{"type": "pong"}` keep-alive reply. -/
inductive OutMessage where
  | connected (robot_id : Topic) (robot : RobotSnapshot) (subscribers : Nat)
  | pong
  deriving DecidableEq

/-- Outcome of the handshake phase of a websocket endpoint: the close code
when the connection was rejected, the messages sent, and the resulting
manager state. -/
structure HandshakeResult where
  closeCode : Option Nat
  sent : List OutMessage
  state : ConnectionManager
  deriving DecidableEq

/-- The handshake phase of `robot_status_stream` (`app/api/v1/websocket.py`
lines 25–53): look the robot up in the Data Store (`db`); if absent, close
with code 4004 and stop; otherwise register via `manager.connect` and send
one `connected` message whose `subscribers` field is
`manager.get_connection_count(robot_id)` evaluated after registration. -/
def robot_status_stream (db : Topic → Option RobotSnapshot)
    (m : ConnectionManager) (websocket : Conn) (robot_id : Topic) :
    HandshakeResult :=
  match db robot_id with
  | none => { closeCode := some 4004, sent := [], state := m }
  | some robot =>
    let m' := m.connect websocket robot_id
    { closeCode := none
      sent := [OutMessage.connected robot_id robot
                 (m'.get_connection_count (some robot_id))]
      state := m' }

/-- An inbound client message as `websocket.receive_json()` returns it.  The
receive loops only inspect `data.get("type")`, so a JSON object is abstracted
to that entry: `ty` is its `"type"` value when that value is a string (a
missing or non-string `"type"`, which compares unequal to `"ping"`, is
`none`).  Every non-object JSON value (array, string, number, boolean, null)
is `nonObject`: Python raises `AttributeError` on `data.get` for these. -/
inductive InboundJson where
  | obj (ty : Option String)
  | nonObject
  deriving DecidableEq

/-- One iteration of the receive loop shared by both endpoints
(`app/api/v1/websocket.py` lines 58–62 and 108–110): on a JSON object whose
`"type"` is `"ping"`, send one `{"type": "pong"}`; on any other JSON object,
do nothing; on a non-object JSON value, `data.get("type")` raises
`AttributeError`, which no handler in the loop catches (only
`WebSocketDisconnect` is).  The manager is returned unchanged in the
non-raising cases: the loop body never touches the registry. -/
def handle_inbound (m : ConnectionManager) :
    InboundJson → Except String (List OutMessage × ConnectionManager)
  | .obj ty =>
    if ty = some "ping" then .ok ([OutMessage.pong], m) else .ok ([], m)
  | .nonObject => .error "AttributeError"

/-- The fleet sentinel `UUID(int=0)` of `fleet_status_stream` (line 99). -/
def fleet_id : Topic := 0

/-- The inline registration block of `fleet_status_stream`
(`app/api/v1/websocket.py` lines 101–104): add the websocket to
`_connections[fleet_id]` (creating the entry if absent) and then assign
`_subscriptions[websocket] = {fleet_id}` — an overwriting assignment, not an
add. -/
def fleet_register (m : ConnectionManager) (websocket : Conn) :
    ConnectionManager :=
  let conns :=
    match dictLookup fleet_id m.connections with
    | none => dictSet fleet_id [websocket] m.connections
    | some s => dictSet fleet_id (setAdd websocket s) m.connections
  { connections := conns
    subscriptions := dictSet websocket [fleet_id] m.subscriptions }

/-- Modelled from the spec (§4.1): "total distinct connections across all
topics when no topic given (distinct, since one connection may subscribe to
multiple topics)" — the size of the union of all topic subscriber sets.
Stated only to compare with `get_connection_count` from the source. -/
def spec_distinct_count (m : ConnectionManager) : Nat :=
  (m.connections.foldl (fun acc e => e.2.foldl (fun a w => setAdd w a) acc)
    []).length

/-- A call in a sequence of registry operations: `register` is
`ConnectionManager.connect` (minus the transport-level `accept`),
`deregister` is `ConnectionManager.disconnect`. -/
inductive RegOp where
  | register (websocket : Conn) (robot_id : Topic)
  | deregister (websocket : Conn)

/-- Apply one registry call. -/
def applyOp (m : ConnectionManager) : RegOp → ConnectionManager
  | .register w r => m.connect w r
  | .deregister w => m.disconnect w

/-- Apply a sequence of registry calls left to right. -/
def applyOps (m : ConnectionManager) (ops : List RegOp) : ConnectionManager :=
  ops.foldl applyOp m

/-- The dual-index agreement invariant of §3 of the spec, stated over the
keys actually present so that it is decidable on concrete states: every
websocket stored under a topic lists that topic in its subscription set, and
vice versa.  `registryInv_iff` below shows this equals the spec's formulation
"`w ∈ _connections[t]` iff `t ∈ _subscriptions[w]`". -/
def registryInv (m : ConnectionManager) : Prop :=
  (∀ t ∈ m.connections.map Prod.fst, ∀ w ∈ connSet m t, t ∈ subSet m w) ∧
  (∀ w ∈ m.subscriptions.map Prod.fst, ∀ t ∈ subSet m w, w ∈ connSet m t)

instance (m : ConnectionManager) : Decidable (registryInv m) := by
  unfold registryInv; infer_instance

/-! ### Well-formedness: the states a Python dict of sets can take -/

/-- A modelled `dict[..., set[...]]` is well formed when its keys are unique
(as in any Python dict) and each stored set is duplicate-free (as in any
Python set). -/
def mapWF {α β : Type} (d : List (α × List β)) : Prop :=
  (d.map Prod.fst).Nodup ∧ ∀ e ∈ d, e.2.Nodup

/-- Both indices of a manager state are well formed. -/
def wfState (m : ConnectionManager) : Prop :=
  mapWF m.connections ∧ mapWF m.subscriptions

instance {α β : Type} [DecidableEq α] [DecidableEq β] (d : List (α × List β)) :
    Decidable (mapWF d) := by
  unfold mapWF; infer_instance

instance (m : ConnectionManager) : Decidable (wfState m) := by
  unfold wfState; infer_instance

/-! ### Lemmas about the dict and set models -/

section DictLemmas

variable {α : Type} {β : Type} [DecidableEq α] {d : List (α × β)} {k k' : α}
variable {v v' : β}

theorem dictLookup_dictSet_self : dictLookup k (dictSet k v d) = some v := by
  induction d with
  | nil => simp [dictLookup, dictSet]
  | cons e rest ih =>
    obtain ⟨a, b⟩ := e
    by_cases h : a = k <;> simp [dictLookup, dictSet, h, ih]

theorem dictLookup_dictSet_ne (h : k' ≠ k) :
    dictLookup k' (dictSet k v d) = dictLookup k' d := by
  induction d with
  | nil => simp [dictLookup, dictSet, Ne.symm h]
  | cons e rest ih =>
    obtain ⟨a, b⟩ := e
    by_cases hak : a = k
    · subst hak
      simp [dictLookup, dictSet, Ne.symm h]
    · simp [dictLookup, dictSet, hak, ih]

theorem dictLookup_dictDel_ne (h : k' ≠ k) :
    dictLookup k' (dictDel k d) = dictLookup k' d := by
  induction d with
  | nil => simp [dictDel]
  | cons e rest ih =>
    obtain ⟨a, b⟩ := e
    by_cases hak : a = k
    · subst hak
      simp [dictLookup, dictDel, Ne.symm h]
    · simp [dictLookup, dictDel, hak, ih]

theorem dictSet_eq_self (h : dictLookup k d = some v) : dictSet k v d = d := by
  induction d with
  | nil => simp [dictLookup] at h
  | cons e rest ih =>
    obtain ⟨a, b⟩ := e
    by_cases hak : a = k
    · subst hak
      simp [dictLookup] at h
      simp [dictSet, h]
    · simp [dictLookup, hak] at h
      simp [dictSet, hak, ih h]

theorem dictSet_dictSet : dictSet k v (dictSet k v' d) = dictSet k v d := by
  induction d with
  | nil => simp [dictSet]
  | cons e rest ih =>
    obtain ⟨a, b⟩ := e
    by_cases hak : a = k <;> simp [dictSet, hak, ih]

theorem mem_dictSet {e : α × β} (h : e ∈ dictSet k v d) :
    e = (k, v) ∨ e ∈ d := by
  induction d with
  | nil =>
    simp only [dictSet, List.mem_singleton] at h
    exact .inl h
  | cons e' rest ih =>
    obtain ⟨a, b⟩ := e'
    by_cases hak : a = k
    · simp [dictSet, hak] at h
      rcases h with h | h
      · exact .inl h
      · exact .inr (List.mem_cons_of_mem _ h)
    · simp [dictSet, hak] at h
      rcases h with h | h
      · exact .inr (by simp [h])
      · rcases ih h with h' | h'
        · exact .inl h'
        · exact .inr (List.mem_cons_of_mem _ h')

theorem mem_dictDel {e : α × β} (h : e ∈ dictDel k d) : e ∈ d := by
  induction d with
  | nil => simp [dictDel] at h
  | cons e' rest ih =>
    obtain ⟨a, b⟩ := e'
    by_cases hak : a = k
    · simp [dictDel, hak] at h
      exact List.mem_cons_of_mem _ h
    · simp [dictDel, hak] at h
      rcases h with h | h
      · simp [h]
      · exact List.mem_cons_of_mem _ (ih h)

theorem dictLookup_mem (h : dictLookup k d = some v) : (k, v) ∈ d := by
  induction d with
  | nil => simp [dictLookup] at h
  | cons e rest ih =>
    obtain ⟨a, b⟩ := e
    by_cases hak : a = k
    · subst hak
      simp [dictLookup] at h
      simp [h]
    · simp [dictLookup, hak] at h
      exact List.mem_cons_of_mem _ (ih h)

theorem dictLookup_isSome_iff :
    (dictLookup k d).isSome ↔ k ∈ d.map Prod.fst := by
  induction d with
  | nil => simp [dictLookup]
  | cons e rest ih =>
    obtain ⟨a, b⟩ := e
    by_cases hak : a = k
    · simp [dictLookup, hak]
    · simp [dictLookup, hak, Ne.symm hak, ih]

theorem dictLookup_eq_none_of_not_mem (h : k ∉ d.map Prod.fst) :
    dictLookup k d = none := by
  have := (dictLookup_isSome_iff (d := d) (k := k)).not.mpr h
  cases hl : dictLookup k d with
  | none => rfl
  | some v => rw [hl] at this; simp at this

theorem keys_dictDel_sublist :
    ((dictDel k d).map Prod.fst).Sublist (d.map Prod.fst) := by
  induction d with
  | nil => simp [dictDel]
  | cons e rest ih =>
    obtain ⟨a, b⟩ := e
    by_cases hak : a = k
    · simp only [dictDel, if_pos hak, List.map_cons]
      exact (List.Sublist.refl _).cons _
    · simp only [dictDel, if_neg hak, List.map_cons]
      exact ih.cons₂ _

theorem keys_nodup_dictDel (h : (d.map Prod.fst).Nodup) :
    ((dictDel k d).map Prod.fst).Nodup :=
  keys_dictDel_sublist.nodup h

theorem dictLookup_dictDel_self (h : (d.map Prod.fst).Nodup) :
    dictLookup k (dictDel k d) = none := by
  induction d with
  | nil => simp [dictDel, dictLookup]
  | cons e rest ih =>
    obtain ⟨a, b⟩ := e
    simp only [List.map_cons, List.nodup_cons] at h
    by_cases hak : a = k
    · subst hak
      simp only [dictDel, if_pos rfl]
      exact dictLookup_eq_none_of_not_mem h.1
    · simp [dictDel, dictLookup, hak, ih h.2]

theorem keys_dictSet (h : (dictLookup k d).isSome) :
    (dictSet k v d).map Prod.fst = d.map Prod.fst := by
  induction d with
  | nil => simp [dictLookup] at h
  | cons e rest ih =>
    obtain ⟨a, b⟩ := e
    by_cases hak : a = k
    · subst hak
      simp [dictSet]
    · simp only [dictLookup, if_neg hak] at h
      simp [dictSet, hak, ih h]

theorem keys_dictSet_of_none (h : dictLookup k d = none) :
    (dictSet k v d).map Prod.fst = d.map Prod.fst ++ [k] := by
  induction d with
  | nil => simp [dictSet]
  | cons e rest ih =>
    obtain ⟨a, b⟩ := e
    by_cases hak : a = k
    · subst hak; simp [dictLookup] at h
    · simp only [dictLookup, if_neg hak] at h
      simp [dictSet, hak, ih h]

theorem keys_nodup_dictSet (h : (d.map Prod.fst).Nodup) :
    ((dictSet k v d).map Prod.fst).Nodup := by
  cases hl : dictLookup k d with
  | none =>
    rw [keys_dictSet_of_none hl]
    have hk : k ∉ d.map Prod.fst := by
      intro hm
      have := dictLookup_isSome_iff.mpr hm
      rw [hl] at this; simp at this
    simp [List.nodup_append, h, hk]
  | some w => rw [keys_dictSet (by simp [hl])]; exact h

theorem mem_setAdd {x y : α} {s : List α} :
    y ∈ setAdd x s ↔ y ∈ s ∨ y = x := by
  unfold setAdd
  by_cases hx : x ∈ s
  · simp only [if_pos hx]
    constructor
    · exact .inl
    · rintro (h | rfl)
      · exact h
      · exact hx
  · simp [if_neg hx]

theorem setAdd_nodup {x : α} {s : List α} (h : s.Nodup) : (setAdd x s).Nodup := by
  unfold setAdd
  by_cases hx : x ∈ s
  · simpa [hx]
  · simpa [hx, List.nodup_append] using h

theorem setAdd_eq_self {x : α} {s : List α} (h : x ∈ s) : setAdd x s = s := by
  simp [setAdd, h]

theorem setAdd_setAdd {x : α} {s : List α} :
    setAdd x (setAdd x s) = setAdd x s :=
  setAdd_eq_self (mem_setAdd.mpr (.inr rfl))

theorem setDiscard_sublist {x : α} {s : List α} : (setDiscard x s).Sublist s := by
  induction s with
  | nil => simp [setDiscard]
  | cons y rest ih =>
    by_cases hy : y = x
    · simp only [setDiscard, if_pos hy]
      exact (List.Sublist.refl _).cons _
    · simp only [setDiscard, if_neg hy]
      exact ih.cons₂ _

theorem setDiscard_nodup {x : α} {s : List α} (h : s.Nodup) :
    (setDiscard x s).Nodup :=
  setDiscard_sublist.nodup h

theorem setDiscard_of_not_mem {x : α} {s : List α} (h : x ∉ s) :
    setDiscard x s = s := by
  induction s with
  | nil => simp [setDiscard]
  | cons y rest ih =>
    simp only [List.mem_cons] at h
    push_neg at h
    simp [setDiscard, Ne.symm h.1, ih h.2]

theorem mem_setDiscard {x y : α} {s : List α} (hn : s.Nodup) :
    y ∈ setDiscard x s ↔ y ∈ s ∧ y ≠ x := by
  induction s with
  | nil => simp [setDiscard]
  | cons z rest ih =>
    simp only [List.nodup_cons] at hn
    by_cases hz : z = x
    · subst hz
      simp only [setDiscard, if_pos rfl]
      constructor
      · intro hy
        refine ⟨List.mem_cons_of_mem _ hy, ?_⟩
        rintro rfl
        exact hn.1 hy
      · rintro ⟨hy, hne⟩
        rcases List.mem_cons.mp hy with rfl | hy
        · exact absurd rfl hne
        · exact hy
    · simp only [setDiscard, if_neg hz, List.mem_cons, ih hn.2]
      constructor
      · rintro (rfl | ⟨hy, hne⟩)
        · exact ⟨.inl rfl, hz⟩
        · exact ⟨.inr hy, hne⟩
      · rintro ⟨rfl | hy, hne⟩
        · exact .inl rfl
        · exact .inr ⟨hy, hne⟩

theorem not_mem_setDiscard {x : α} {s : List α} (hn : s.Nodup) :
    x ∉ setDiscard x s := by
  intro h
  exact ((mem_setDiscard hn).mp h).2 rfl

end DictLemmas

/-! ### Lemmas about well-formed states -/

section WFLemmas

variable {α : Type} [DecidableEq α] {d : List (α × List Nat)} {k : α}
variable {v s : List Nat}

theorem mapWF_lookup_nodup (h : mapWF d) (hl : dictLookup k d = some v) :
    v.Nodup :=
  h.2 _ (dictLookup_mem hl)

theorem mapWF_dictSet (h : mapWF d) (hv : v.Nodup) : mapWF (dictSet k v d) := by
  refine ⟨keys_nodup_dictSet h.1, fun e he => ?_⟩
  rcases mem_dictSet he with rfl | he
  · exact hv
  · exact h.2 _ he

theorem mapWF_dictDel (h : mapWF d) : mapWF (dictDel k d) :=
  ⟨keys_nodup_dictDel h.1, fun _e he => h.2 _ (mem_dictDel he)⟩

end WFLemmas

/-! ### Characterisation of the registry operations -/

theorem manager_ext {m₁ m₂ : ConnectionManager}
    (h1 : m₁.connections = m₂.connections)
    (h2 : m₁.subscriptions = m₂.subscriptions) : m₁ = m₂ := by
  cases m₁; cases m₂; cases h1; cases h2; rfl

theorem connect_connections_eq (m : ConnectionManager) (w : Conn) (r : Topic) :
    (m.connect w r).connections =
      dictSet r (setAdd w (connSet m r)) m.connections := by
  unfold ConnectionManager.connect connSet
  cases h : dictLookup r m.connections <;> simp [h, setAdd]

theorem connect_subscriptions_eq (m : ConnectionManager) (w : Conn) (r : Topic) :
    (m.connect w r).subscriptions =
      dictSet w (setAdd r (subSet m w)) m.subscriptions := by
  unfold ConnectionManager.connect subSet
  cases h : dictLookup w m.subscriptions <;> simp [h, setAdd]

theorem connSet_connect (m : ConnectionManager) (w : Conn) (r t : Topic) :
    connSet (m.connect w r) t =
      if t = r then setAdd w (connSet m r) else connSet m t := by
  by_cases h : t = r
  · subst h
    unfold connSet
    rw [connect_connections_eq, dictLookup_dictSet_self]
    simp [connSet]
  · unfold connSet
    rw [connect_connections_eq, dictLookup_dictSet_ne h, if_neg h]

theorem subSet_connect (m : ConnectionManager) (w : Conn) (r : Topic)
    (w' : Conn) :
    subSet (m.connect w r) w' =
      if w' = w then setAdd r (subSet m w) else subSet m w' := by
  by_cases h : w' = w
  · subst h
    unfold subSet
    rw [connect_subscriptions_eq, dictLookup_dictSet_self]
    simp [subSet]
  · unfold subSet
    rw [connect_subscriptions_eq, dictLookup_dictSet_ne h, if_neg h]

theorem mapWF_removeConn {w : Conn} {conns : TopicMap} {t : Topic}
    (h : mapWF conns) : mapWF (removeConn w conns t) := by
  unfold removeConn
  cases hl : dictLookup t conns with
  | none => exact h
  | some s =>
    by_cases hs : setDiscard w s = []
    · simpa [hs] using mapWF_dictDel h
    · simpa [hs] using
        mapWF_dictSet h (setDiscard_nodup (mapWF_lookup_nodup h hl))

theorem mapWF_foldl_removeConn {w : Conn} {l : List Topic} {conns : TopicMap}
    (h : mapWF conns) : mapWF (l.foldl (removeConn w) conns) := by
  induction l generalizing conns with
  | nil => exact h
  | cons a l ih => exact ih (mapWF_removeConn h)

theorem dictLookup_removeConn_self {w : Conn} {conns : TopicMap} {t : Topic}
    (h : (conns.map Prod.fst).Nodup) :
    dictLookup t (removeConn w conns t) = pruneErase w (dictLookup t conns) := by
  unfold removeConn pruneErase
  cases hl : dictLookup t conns with
  | none => simp [hl]
  | some s =>
    by_cases hs : setDiscard w s = []
    · simp [hs, dictLookup_dictDel_self h]
    · simp [hs, dictLookup_dictSet_self]

theorem dictLookup_removeConn_ne {w : Conn} {conns : TopicMap} {t a : Topic}
    (hne : t ≠ a) :
    dictLookup t (removeConn w conns a) = dictLookup t conns := by
  unfold removeConn
  cases hl : dictLookup a conns with
  | none => rfl
  | some s =>
    by_cases hs : setDiscard w s = []
    · simp [hs, dictLookup_dictDel_ne hne]
    · simp [hs, dictLookup_dictSet_ne hne]

theorem pruneErase_pruneErase {w : Conn} {o : Option (List Conn)}
    (h : ∀ s, o = some s → s.Nodup) :
    pruneErase w (pruneErase w o) = pruneErase w o := by
  cases o with
  | none => rfl
  | some s =>
    have hs := h s rfl
    by_cases he : setDiscard w s = []
    · simp [pruneErase, he]
    · have hd : setDiscard w (setDiscard w s) = setDiscard w s :=
        setDiscard_of_not_mem (not_mem_setDiscard hs)
      simp [pruneErase, he, hd]

theorem dictLookup_foldl_removeConn (w : Conn) (l : List Topic)
    (conns : TopicMap) (hwf : mapWF conns) (t : Topic) :
    dictLookup t (l.foldl (removeConn w) conns) =
      if t ∈ l then pruneErase w (dictLookup t conns)
      else dictLookup t conns := by
  induction l generalizing conns with
  | nil => simp
  | cons a l ih =>
    rw [List.foldl_cons, ih _ (mapWF_removeConn hwf)]
    by_cases hta : t = a
    · subst hta
      rw [dictLookup_removeConn_self hwf.1]
      by_cases htl : t ∈ l
      · simp [htl,
          pruneErase_pruneErase (fun s hs => mapWF_lookup_nodup hwf hs)]
      · simp [htl]
    · rw [dictLookup_removeConn_ne hta]
      by_cases htl : t ∈ l <;> simp [htl, hta]

theorem disconnect_eq_of_none {m : ConnectionManager} {w : Conn}
    (h : dictLookup w m.subscriptions = none) : m.disconnect w = m := by
  unfold ConnectionManager.disconnect
  simp [h]

theorem disconnect_subscriptions_lookup_self (m : ConnectionManager) (w : Conn)
    (h : (m.subscriptions.map Prod.fst).Nodup) :
    dictLookup w (m.disconnect w).subscriptions = none := by
  unfold ConnectionManager.disconnect
  cases hl : dictLookup w m.subscriptions with
  | none => simp [hl]
  | some topics => simp [hl, dictLookup_dictDel_self h]

theorem disconnect_subscriptions_lookup_ne (m : ConnectionManager)
    {w w' : Conn} (h : w' ≠ w) :
    dictLookup w' (m.disconnect w).subscriptions =
      dictLookup w' m.subscriptions := by
  unfold ConnectionManager.disconnect
  cases hl : dictLookup w m.subscriptions with
  | none => simp [hl]
  | some topics => simp [hl, dictLookup_dictDel_ne h]

theorem subSet_disconnect (m : ConnectionManager) (w w' : Conn)
    (h : (m.subscriptions.map Prod.fst).Nodup) :
    subSet (m.disconnect w) w' = if w' = w then [] else subSet m w' := by
  by_cases hw : w' = w
  · subst hw
    simp [subSet, disconnect_subscriptions_lookup_self m w' h]
  · simp [subSet, disconnect_subscriptions_lookup_ne m hw, hw]

theorem disconnect_connections_lookup (m : ConnectionManager) (w : Conn)
    (t : Topic) (hwf : wfState m) :
    dictLookup t (m.disconnect w).connections =
      if t ∈ subSet m w then pruneErase w (dictLookup t m.connections)
      else dictLookup t m.connections := by
  unfold ConnectionManager.disconnect
  cases hl : dictLookup w m.subscriptions with
  | none => simp [subSet, hl]
  | some topics =>
    simp only [hl]
    rw [dictLookup_foldl_removeConn w topics m.connections hwf.1 t]
    simp [subSet, hl]

theorem pruneErase_getD {w : Conn} (o : Option (List Conn)) :
    (pruneErase w o).getD [] = setDiscard w (o.getD []) := by
  cases o with
  | none => simp [pruneErase, setDiscard]
  | some s =>
    unfold pruneErase
    by_cases he : setDiscard w s = [] <;> simp [he]

theorem connSet_disconnect (m : ConnectionManager) (w : Conn) (t : Topic)
    (hwf : wfState m) :
    connSet (m.disconnect w) t =
      if t ∈ subSet m w then setDiscard w (connSet m t) else connSet m t := by
  unfold connSet
  rw [disconnect_connections_lookup m w t hwf]
  by_cases h : t ∈ subSet m w <;> simp [h, pruneErase_getD, connSet]

/-! ### The dual-index invariant and its preservation -/

theorem connSet_nodup {m : ConnectionManager} (h : wfState m) (t : Topic) :
    (connSet m t).Nodup := by
  unfold connSet
  cases hl : dictLookup t m.connections with
  | none => simp
  | some s => simpa using mapWF_lookup_nodup h.1 hl

theorem subSet_nodup {m : ConnectionManager} (h : wfState m) (w : Conn) :
    (subSet m w).Nodup := by
  unfold subSet
  cases hl : dictLookup w m.subscriptions with
  | none => simp
  | some s => simpa using mapWF_lookup_nodup h.2 hl

theorem registryInv_iff (m : ConnectionManager) :
    registryInv m ↔ ∀ t w, (w ∈ connSet m t ↔ t ∈ subSet m w) := by
  constructor
  · rintro ⟨h1, h2⟩ t w
    constructor
    · intro hw
      have ht : t ∈ m.connections.map Prod.fst := by
        by_contra hc
        rw [connSet, dictLookup_eq_none_of_not_mem hc] at hw
        simp at hw
      exact h1 t ht w hw
    · intro ht
      have hwk : w ∈ m.subscriptions.map Prod.fst := by
        by_contra hc
        rw [subSet, dictLookup_eq_none_of_not_mem hc] at ht
        simp at ht
      exact h2 w hwk t ht
  · intro h
    exact ⟨fun t _ w hw => (h t w).mp hw, fun w _ t ht => (h t w).mpr ht⟩

theorem wfState_connect {m : ConnectionManager} (h : wfState m) (w : Conn)
    (r : Topic) : wfState (m.connect w r) := by
  constructor
  · rw [connect_connections_eq]
    exact mapWF_dictSet h.1 (setAdd_nodup (connSet_nodup h r))
  · rw [connect_subscriptions_eq]
    exact mapWF_dictSet h.2 (setAdd_nodup (subSet_nodup h w))

theorem wfState_disconnect {m : ConnectionManager} (h : wfState m) (w : Conn) :
    wfState (m.disconnect w) := by
  unfold ConnectionManager.disconnect
  cases hl : dictLookup w m.subscriptions with
  | none => simpa [hl] using h
  | some topics =>
    simp only [hl]
    exact ⟨mapWF_foldl_removeConn h.1, mapWF_dictDel h.2⟩

theorem registryInv_connect {m : ConnectionManager} (hinv : registryInv m)
    (w : Conn) (r : Topic) : registryInv (m.connect w r) := by
  rw [registryInv_iff] at hinv ⊢
  intro t w'
  rw [connSet_connect, subSet_connect]
  by_cases ht : t = r <;> by_cases hw : w' = w
  · simp [ht, hw, mem_setAdd]
  · simp [ht, hw, mem_setAdd, hinv r w']
  · simp [ht, hw, mem_setAdd, hinv t w]
  · simp [ht, hw, hinv t w']

theorem registryInv_disconnect {m : ConnectionManager} (hwf : wfState m)
    (hinv : registryInv m) (w : Conn) : registryInv (m.disconnect w) := by
  rw [registryInv_iff] at hinv ⊢
  intro t w'
  rw [connSet_disconnect m w t hwf, subSet_disconnect m w w' hwf.2.1]
  by_cases hw : w' = w
  · subst hw
    rw [if_pos rfl]
    simp only [List.not_mem_nil, iff_false]
    by_cases ht : t ∈ subSet m w'
    · rw [if_pos ht]
      exact not_mem_setDiscard (connSet_nodup hwf t)
    · rw [if_neg ht]
      intro hmem
      exact ht ((hinv t w').mp hmem)
  · rw [if_neg hw]
    by_cases ht : t ∈ subSet m w
    · rw [if_pos ht, mem_setDiscard (connSet_nodup hwf t)]
      constructor
      · rintro ⟨hmem, _⟩
        exact (hinv t w').mp hmem
      · intro hsub
        exact ⟨(hinv t w').mpr hsub, hw⟩
    · rw [if_neg ht]
      exact hinv t w'

theorem wf_inv_applyOps (ops : List RegOp) (m : ConnectionManager)
    (h : wfState m ∧ registryInv m) :
    wfState (applyOps m ops) ∧ registryInv (applyOps m ops) := by
  induction ops generalizing m with
  | nil => exact h
  | cons op ops ih =>
    cases op with
    | register w r =>
      exact ih _ ⟨wfState_connect h.1 w r, registryInv_connect h.2 w r⟩
    | deregister w =>
      exact ih _ ⟨wfState_disconnect h.1 w, registryInv_disconnect h.1 h.2 w⟩

/-! ### Claims -/

/-- C1: for every sequence of register (`ConnectionManager.connect`) and
deregister (`ConnectionManager.disconnect`) calls starting from the empty
registry, the two mappings stay mutually consistent after every call: a
websocket is a member of `_connections[t]` for topic `t` if and only if `t`
is a member of `_subscriptions[websocket]`. -/
theorem c1_register_deregister_consistent (ops : List RegOp) (t : Topic)
    (w : Conn) :
    w ∈ connSet (applyOps emptyManager ops) t ↔
      t ∈ subSet (applyOps emptyManager ops) w :=
  (registryInv_iff _).mp
    (wf_inv_applyOps ops emptyManager (by decide)).2 t w

/-- C2: evaluation of the code at the failing input — one websocket (1)
subscribed to two topics (10 and 20).  `get_connection_count` with no topic
returns 2, the sum of the per-topic set sizes, although only one distinct
websocket is connected (`spec_distinct_count`, the count the spec asks
for, is 1). -/
theorem c2_count_sums_not_distinct :
    ((emptyManager.connect 1 10).connect 1 20).get_connection_count none = 2 ∧
      spec_distinct_count ((emptyManager.connect 1 10).connect 1 20) = 1 ∧
      ((emptyManager.connect 1 10).connect 1 20).get_connection_count none ≠
        spec_distinct_count ((emptyManager.connect 1 10).connect 1 20) := by
  decide

/-- C9: register is idempotent on the registry state: registering `(w, r)`
twice yields the same state as registering it once, and registering a pair
that is already present in both indices leaves the state unchanged. -/
theorem c9_connect_idempotent (m : ConnectionManager) (w : Conn) (r : Topic) :
    (m.connect w r).connect w r = m.connect w r ∧
    (∀ S T, dictLookup r m.connections = some S → w ∈ S →
      dictLookup w m.subscriptions = some T → r ∈ T → m.connect w r = m) := by
  constructor
  · apply manager_ext
    · rw [connect_connections_eq (m.connect w r), connSet_connect,
        if_pos rfl, setAdd_setAdd, connect_connections_eq m, dictSet_dictSet]
    · rw [connect_subscriptions_eq (m.connect w r), subSet_connect,
        if_pos rfl, setAdd_setAdd, connect_subscriptions_eq m, dictSet_dictSet]
  · intro S T hS hwS hT hrT
    apply manager_ext
    · rw [connect_connections_eq]
      have hc : connSet m r = S := by rw [connSet, hS]; rfl
      rw [hc, setAdd_eq_self hwS]
      exact dictSet_eq_self hS
    · rw [connect_subscriptions_eq]
      have hc : subSet m w = T := by rw [subSet, hT]; rfl
      rw [hc, setAdd_eq_self hrT]
      exact dictSet_eq_self hT

/-- Witness for C9 at websocket 3, topic 5: the second register is a no-op. -/
theorem c9_connect_idempotent_witness :
    ((emptyManager.connect 3 5).connect 3 5).connect 3 5 =
        (emptyManager.connect 3 5).connect 3 5 ∧
      (emptyManager.connect 3 5).connect 3 5 = emptyManager.connect 3 5 :=
  ⟨(c9_connect_idempotent (emptyManager.connect 3 5) 3 5).1,
    (c9_connect_idempotent (emptyManager.connect 3 5) 3 5).2 [3] [5]
      (by decide) (by decide) (by decide) (by decide)⟩

/-- C4: deregistering a websocket subscribed to the topics `S` removes it
from every topic in `S`, prunes each topic entry whose subscriber set became
empty (so no empty-set entry remains in the topic map), and a second
deregister of the same websocket leaves the state unchanged. -/
theorem c4_disconnect_removes_and_prunes (m : ConnectionManager) (w : Conn)
    (S : List Topic) (hwf : wfState m)
    (hS : dictLookup w m.subscriptions = some S) :
    (∀ t ∈ S, w ∉ connSet (m.disconnect w) t) ∧
    (∀ t ∈ S, setDiscard w (connSet m t) = [] →
      dictLookup t (m.disconnect w).connections = none) ∧
    ((∀ t s, dictLookup t m.connections = some s → s ≠ []) →
      ∀ t s, dictLookup t (m.disconnect w).connections = some s → s ≠ []) ∧
    (m.disconnect w).disconnect w = m.disconnect w := by
  have hsub : subSet m w = S := by rw [subSet, hS]; rfl
  refine ⟨?_, ?_, ?_, ?_⟩
  · intro t htS
    rw [connSet_disconnect m w t hwf, hsub, if_pos htS]
    exact not_mem_setDiscard (connSet_nodup hwf t)
  · intro t htS hempty
    rw [disconnect_connections_lookup m w t hwf, hsub, if_pos htS]
    cases hl : dictLookup t m.connections with
    | none => rfl
    | some s =>
      rw [connSet, hl] at hempty
      simp only [Option.getD_some] at hempty
      simp [pruneErase, hempty]
  · intro hne t s hl
    rw [disconnect_connections_lookup m w t hwf] at hl
    by_cases ht : t ∈ subSet m w
    · rw [if_pos ht] at hl
      cases hl0 : dictLookup t m.connections with
      | none => rw [hl0] at hl; simp [pruneErase] at hl
      | some s0 =>
        rw [hl0] at hl
        simp only [pruneErase] at hl
        by_cases he : setDiscard w s0 = []
        · rw [if_pos he] at hl
          simp at hl
        · rw [if_neg he] at hl
          injection hl with h
          rw [← h]
          exact he
    · rw [if_neg ht] at hl
      exact hne t s hl
  · exact disconnect_eq_of_none
      (disconnect_subscriptions_lookup_self m w hwf.2.1)

/-- Witness for C4: websocket 1 subscribed to topics 5 and 6, topic 6 shared
with websocket 2, so topic 5 is pruned and topic 6 survives. -/
theorem c4_disconnect_removes_and_prunes_witness :
    wfState (((emptyManager.connect 1 5).connect 1 6).connect 2 6) ∧
      dictLookup 1
          (((emptyManager.connect 1 5).connect 1 6).connect 2 6).subscriptions =
        some [5, 6] ∧
      ((∀ t ∈ [5, 6],
          (1 : Conn) ∉
            connSet
              ((((emptyManager.connect 1 5).connect 1 6).connect 2 6).disconnect
                1) t) ∧
        (∀ t ∈ [5, 6],
          setDiscard 1
              (connSet (((emptyManager.connect 1 5).connect 1 6).connect 2 6)
                t) = [] →
          dictLookup t
              ((((emptyManager.connect 1 5).connect 1 6).connect
                    2 6).disconnect 1).connections =
            none) ∧
        ((∀ t s,
            dictLookup t
                (((emptyManager.connect 1 5).connect 1 6).connect
                    2 6).connections =
              some s →
            s ≠ []) →
          ∀ t s,
            dictLookup t
                ((((emptyManager.connect 1 5).connect 1 6).connect
                      2 6).disconnect 1).connections =
              some s →
            s ≠ []) ∧
        ((((emptyManager.connect 1 5).connect 1 6).connect 2 6).disconnect
              1).disconnect 1 =
          (((emptyManager.connect 1 5).connect 1 6).connect 2 6).disconnect
            1) :=
  ⟨by decide, by decide,
    c4_disconnect_removes_and_prunes
      (((emptyManager.connect 1 5).connect 1 6).connect 2 6) 1 [5, 6]
      (by decide) (by decide)⟩

/-- C3: broadcasting to a topic whose subscriber set is `{c1, c2}` where the
send to `c2` raises and the send to `c1` succeeds delivers to `c1`, performs
exactly one cleanup pass after the delivery sweep — the resulting state is
exactly `disconnect c2` applied to the pre-broadcast state — and deregisters
`c2`; the broadcast is a total function, so nothing is raised to the
caller. -/
theorem c3_broadcast_one_failure (m : ConnectionManager) (t : Topic)
    (c1 c2 : Conn) (S : List Conn) (ok : Conn → Bool) (hwf : wfState m)
    (hS : dictLookup t m.connections = some S)
    (hord : S = [c1, c2] ∨ S = [c2, c1])
    (h1 : ok c1 = true) (h2 : ok c2 = false) :
    (m.broadcast_robot_update t ok).1 = [c1] ∧
    (m.broadcast_robot_update t ok).2 = m.disconnect c2 ∧
    dictLookup c2 ((m.broadcast_robot_update t ok).2).subscriptions = none := by
  have hb : m.broadcast_robot_update t ok =
      (S.filter ok,
        (S.filter (fun w => ! ok w)).foldl (fun s w => s.disconnect w) m) := by
    unfold ConnectionManager.broadcast_robot_update
    rw [hS]
  have hdel : S.filter ok = [c1] := by
    rcases hord with rfl | rfl <;> simp [h1, h2]
  have hdead : S.filter (fun w => ! ok w) = [c2] := by
    rcases hord with rfl | rfl <;> simp [h1, h2]
  rw [hb, hdel, hdead]
  exact ⟨rfl, rfl,
    disconnect_subscriptions_lookup_self m c2 hwf.2.1⟩

/-- Witness for C3: topic 9 subscribed by websockets 1 and 2; sending to 2
fails.  Websocket 1 receives the payload, 2 is deregistered. -/
theorem c3_broadcast_one_failure_witness :
    wfState ((emptyManager.connect 1 9).connect 2 9) ∧
      dictLookup 9 ((emptyManager.connect 1 9).connect 2 9).connections =
        some [1, 2] ∧
      (((emptyManager.connect 1 9).connect 2 9).broadcast_robot_update 9
          (fun w => w == 1)).1 = [1] ∧
      (((emptyManager.connect 1 9).connect 2 9).broadcast_robot_update 9
          (fun w => w == 1)).2 =
        ((emptyManager.connect 1 9).connect 2 9).disconnect 2 ∧
      dictLookup 2
          ((((emptyManager.connect 1 9).connect 2 9).broadcast_robot_update 9
              (fun w => w == 1)).2).subscriptions = none := by
  have h := c3_broadcast_one_failure ((emptyManager.connect 1 9).connect 2 9)
    9 1 2 [1, 2] (fun w => w == 1) (by decide) (by decide) (Or.inl rfl)
    (by decide) (by decide)
  exact ⟨by decide, by decide, h.1, h.2.1, h.2.2⟩

/-- C5: connecting to the robot-scoped endpoint for a robot id that does not
resolve in the Data Store closes with the distinguishable code 4004, sends
no message, and leaves the registry untouched. -/
theorem c5_unknown_robot_rejected (db : Topic → Option RobotSnapshot)
    (m : ConnectionManager) (websocket : Conn) (robot_id : Topic)
    (hdb : db robot_id = none) :
    robot_status_stream db m websocket robot_id =
      { closeCode := some 4004, sent := [], state := m } := by
  unfold robot_status_stream
  rw [hdb]

/-- Witness for C5 with an empty Data Store. -/
theorem c5_unknown_robot_rejected_witness :
    (fun _ : Topic => (none : Option RobotSnapshot)) 7 = none ∧
      robot_status_stream (fun _ => none) emptyManager 3 7 =
        { closeCode := some 4004, sent := [], state := emptyManager } :=
  ⟨rfl, c5_unknown_robot_rejected (fun _ => none) emptyManager 3 7 rfl⟩

/-- C6: a broadcast for topic `r` delivers exactly to the connections stored
under `r` (those for which the send succeeds), and a connection subscribed
only to the fleet-wide sentinel topic never receives a per-robot update for
a robot id distinct from the sentinel. -/
theorem c6_broadcast_targets_subscribers (m : ConnectionManager) (r : Topic)
    (ok : Conn → Bool) (c : Conn) (hinv : registryInv m)
    (hc : dictLookup c m.subscriptions = some [fleet_id]) (hr : r ≠ fleet_id) :
    (∀ c', c' ∈ (m.broadcast_robot_update r ok).1 ↔
      (c' ∈ connSet m r ∧ ok c' = true)) ∧
    c ∉ (m.broadcast_robot_update r ok).1 := by
  have hmem : ∀ c', c' ∈ (m.broadcast_robot_update r ok).1 ↔
      (c' ∈ connSet m r ∧ ok c' = true) := by
    intro c'
    unfold ConnectionManager.broadcast_robot_update
    cases hl : dictLookup r m.connections with
    | none => simp [connSet, hl]
    | some s => simp [connSet, hl, List.mem_filter]
  refine ⟨hmem, fun hcmem => ?_⟩
  have h1 := ((hmem c).mp hcmem).1
  have h2 := ((registryInv_iff m).mp hinv r c).mp h1
  rw [subSet, hc] at h2
  simp only [Option.getD_some, List.mem_singleton] at h2
  exact hr h2

/-- Witness for C6: websocket 4 subscribed only to the fleet sentinel does
not receive a broadcast for robot topic 7 even when every send succeeds. -/
theorem c6_broadcast_targets_subscribers_witness :
    registryInv (fleet_register emptyManager 4) ∧
      dictLookup 4 (fleet_register emptyManager 4).subscriptions =
        some [fleet_id] ∧
      (7 : Topic) ≠ fleet_id ∧
      ((∀ c', c' ∈ ((fleet_register emptyManager 4).broadcast_robot_update 7
            (fun _ => true)).1 ↔
          (c' ∈ connSet (fleet_register emptyManager 4) 7 ∧
            (fun _ : Conn => true) c' = true)) ∧
        4 ∉ ((fleet_register emptyManager 4).broadcast_robot_update 7
            (fun _ => true)).1) := by
  have h := c6_broadcast_targets_subscribers (fleet_register emptyManager 4)
    7 (fun _ => true) 4 (by decide) (by decide) (by decide)
  exact ⟨by decide, by decide, by decide, h⟩

/-- C7 counterexample: an inbound non-object JSON message (such as the JSON
array `[]`) is not ignored: `data.get("type")` raises `AttributeError`,
which the receive loop does not catch (only `WebSocketDisconnect` is). -/
theorem c7_nonobject_message_raises :
    handle_inbound emptyManager InboundJson.nonObject =
      Except.error "AttributeError" := rfl

/-- C7 amended: for inbound JSON objects the claim holds — an object tagged
`"ping"` yields exactly one pong and no registry change, and any other
object is ignored with no error and no registry change — but a non-object
JSON message raises `AttributeError` instead of being ignored. -/
theorem c7_ping_pong_objects (m : ConnectionManager) (ty : Option String) :
    handle_inbound m (InboundJson.obj (some "ping")) =
        Except.ok ([OutMessage.pong], m) ∧
      (ty ≠ some "ping" →
        handle_inbound m (InboundJson.obj ty) = Except.ok ([], m)) ∧
      handle_inbound m InboundJson.nonObject =
        Except.error "AttributeError" := by
  refine ⟨rfl, fun hne => ?_, rfl⟩
  simp only [handle_inbound]
  rw [if_neg hne]

/-- Witness for C7 at a `"hello"`-typed object: ignored without error. -/
theorem c7_ping_pong_objects_witness :
    (some "hello" : Option String) ≠ some "ping" ∧
      handle_inbound emptyManager (InboundJson.obj (some "hello")) =
        Except.ok ([], emptyManager) :=
  ⟨by decide,
    (c7_ping_pong_objects emptyManager (some "hello")).2.1 (by decide)⟩

/-- C8: a successful connect on the robot-scoped endpoint sends exactly one
`connected` message carrying the topic id, the robot snapshot and the
subscriber count for that topic taken after registration; the count is 1
when the topic had no entry before the connect. -/
theorem c8_connected_message (db : Topic → Option RobotSnapshot)
    (m : ConnectionManager) (websocket : Conn) (robot_id : Topic)
    (robot : RobotSnapshot) (hdb : db robot_id = some robot) :
    (robot_status_stream db m websocket robot_id).closeCode = none ∧
    (robot_status_stream db m websocket robot_id).sent =
      [OutMessage.connected robot_id robot
        ((m.connect websocket robot_id).get_connection_count
          (some robot_id))] ∧
    (dictLookup robot_id m.connections = none →
      (robot_status_stream db m websocket robot_id).sent =
        [OutMessage.connected robot_id robot 1]) := by
  have hcount : dictLookup robot_id m.connections = none →
      (m.connect websocket robot_id).get_connection_count (some robot_id) =
        1 := by
    intro hnone
    have hc : connSet m robot_id = [] := by rw [connSet, hnone]; rfl
    simp only [ConnectionManager.get_connection_count]
    rw [connect_connections_eq, dictLookup_dictSet_self, Option.getD_some, hc]
    rfl
  unfold robot_status_stream
  rw [hdb]
  refine ⟨rfl, rfl, fun hnone => ?_⟩
  simp [hcount hnone]

/-- Witness for C8: connecting websocket 2 to robot 7 on a one-robot Data
Store and an empty registry yields one `connected` message with count 1. -/
theorem c8_connected_message_witness :
    (fun t : Topic =>
        if t = 7 then some (RobotSnapshot.mk 7 "R1" "SN1" "idle" 0 0 0 0 100)
        else none) 7 =
      some (RobotSnapshot.mk 7 "R1" "SN1" "idle" 0 0 0 0 100) ∧
    (robot_status_stream
        (fun t => if t = 7 then
          some (RobotSnapshot.mk 7 "R1" "SN1" "idle" 0 0 0 0 100) else none)
        emptyManager 2 7).closeCode = none ∧
    (robot_status_stream
        (fun t => if t = 7 then
          some (RobotSnapshot.mk 7 "R1" "SN1" "idle" 0 0 0 0 100) else none)
        emptyManager 2 7).sent =
      [OutMessage.connected 7 (RobotSnapshot.mk 7 "R1" "SN1" "idle" 0 0 0 0 100)
        1] := by
  have h := c8_connected_message
    (fun t => if t = 7 then
      some (RobotSnapshot.mk 7 "R1" "SN1" "idle" 0 0 0 0 100) else none)
    emptyManager 2 7 (RobotSnapshot.mk 7 "R1" "SN1" "idle" 0 0 0 0 100) rfl
  exact ⟨rfl, h.1, h.2.2 rfl⟩

/-- C10: the fleet endpoint's inline registration overwrites
`_subscriptions[websocket]` with `{fleet_id}`: a websocket previously
registered on robot topic `r` via `connect` stays in `_connections[r]` while
`r` disappears from its subscription set — breaking the dual-index
agreement — and a subsequent `disconnect` fails to remove it from
`_connections[r]`. -/
theorem c10_fleet_overwrite_breaks_dual_index (m : ConnectionManager)
    (w : Conn) (r : Topic) (hr : r ≠ fleet_id) :
    w ∈ connSet (fleet_register (m.connect w r) w) r ∧
    r ∉ subSet (fleet_register (m.connect w r) w) w ∧
    w ∈ connSet ((fleet_register (m.connect w r) w).disconnect w) r := by
  have hconn : dictLookup r (fleet_register (m.connect w r) w).connections =
      dictLookup r (m.connect w r).connections := by
    unfold fleet_register
    cases hl : dictLookup fleet_id (m.connect w r).connections with
    | none =>
      simp only [hl]
      exact dictLookup_dictSet_ne hr
    | some s =>
      simp only [hl]
      exact dictLookup_dictSet_ne hr
  have hcs : connSet (fleet_register (m.connect w r) w) r =
      setAdd w (connSet m r) := by
    rw [connSet, hconn, ← connSet, connSet_connect, if_pos rfl]
  have hsubs : dictLookup w (fleet_register (m.connect w r) w).subscriptions =
      some [fleet_id] := by
    unfold fleet_register
    exact dictLookup_dictSet_self
  refine ⟨?_, ?_, ?_⟩
  · rw [hcs]
    exact mem_setAdd.mpr (.inr rfl)
  · rw [subSet, hsubs]
    simp only [Option.getD_some, List.mem_singleton]
    exact hr
  · have hd : dictLookup r
        ((fleet_register (m.connect w r) w).disconnect w).connections =
        dictLookup r (fleet_register (m.connect w r) w).connections := by
      unfold ConnectionManager.disconnect
      rw [hsubs]
      simp only [List.foldl]
      exact dictLookup_removeConn_ne hr
    rw [connSet, hd, ← connSet, hcs]
    exact mem_setAdd.mpr (.inr rfl)

/-- Witness for C10: websocket 1 on robot topic 5, then the fleet
registration, then a disconnect: websocket 1 is still recorded under
topic 5. -/
theorem c10_fleet_overwrite_breaks_dual_index_witness :
    (5 : Topic) ≠ fleet_id ∧
      1 ∈ connSet (fleet_register (emptyManager.connect 1 5) 1) 5 ∧
      5 ∉ subSet (fleet_register (emptyManager.connect 1 5) 1) 1 ∧
      1 ∈ connSet ((fleet_register (emptyManager.connect 1 5) 1).disconnect 1)
        5 := by
  have h := c10_fleet_overwrite_breaks_dual_index emptyManager 1 5 (by decide)
  exact ⟨by decide, h.1, h.2.1, h.2.2⟩
